import Mathlib

/-!
Verification of the identifier-resolution subsystem in `src/database/ident.c`
(the `de` database of the rune compiler).

The C code works on a global DataDraw database of flat record arenas addressed
by integer handles, with a reserved null handle.  We embed the state as a
structure `deRoot` of arena functions `Nat → record`, with `Option Nat` in
place of nullable handles, and a `numIdents` allocation counter for the
identifier arena (`deIdentAlloc` hands out the next index).  Symbols (`utSym`)
and lines (`deLine`) are plain `Nat`s; `deLineNull` is `0`.

Path expressions (`deExpression` of type `DE_EXPR_IDENT` / `DE_EXPR_DOT` /
`DE_EXPR_AS`) are consumed read-only by the path resolver, so they are embedded
as an inductive tree: a `DE_EXPR_DOT` node carries its sub-path and the name of
its second child (the C code asserts the second child is a `DE_EXPR_IDENT`),
and a `DE_EXPR_AS` node carries its first child (the second child, the alias
name, plays no part in resolution).  The identifier-reference expressions kept
on an identifier's back-reference list (`deForeachIdentExpression`) are only
read and written through their mutable name field, so they are embedded as an
arena `exprName : Nat → Nat`.

`utExit` / `utAssert` failures (compiler-internal aborts) are modelled by the
`Except` error `utExitError.called`; the reported duplicate-identifier compile
error raised by `deError` is modelled by `deDupIdentError`, carrying the
conflicting name and the line of the new declaration.
-/

namespace Rune

/-- `DE_IDENT_FUNCTION` / `DE_IDENT_VARIABLE` (`deIdentType`). -/
inductive deIdentType where
  | DE_IDENT_FUNCTION
  | DE_IDENT_VARIABLE
deriving DecidableEq, Repr

/-- `DE_BLOCK_FUNCTION` / `DE_BLOCK_STATEMENT` / `DE_BLOCK_CLASS` (`deBlockType`). -/
inductive deBlockType where
  | DE_BLOCK_FUNCTION
  | DE_BLOCK_STATEMENT
  | DE_BLOCK_CLASS
deriving DecidableEq, Repr

/-- An identifier record (`deIdent`): variant tag, interned name (`utSym`),
back-pointers to its Function / Variable payload (set by
`deFunctionAppendIdent` / `deVariableAppendIdent`), the block whose hash table
holds it (`deIdentGetBlock`, null for operator identifiers), and its list of
back-referencing identifier expressions (`deForeachIdentExpression`). -/
structure deIdentRec where
  type : deIdentType
  sym : Nat
  functionIdx : Nat := 0
  variableIdx : Nat := 0
  block : Option Nat := none
  exprs : List Nat := []
deriving DecidableEq, Repr

/-- A block record (`deBlock`): block type, the ordered name table of
identifiers declared directly in it, the owning block
(`deBlockGetOwningBlock`), the filepath it belongs to (`deBlockGetFilepath`,
null for built-in blocks), and the owning function / class handles used by
`deFindIdentOwningIdent`. -/
structure deBlockRec where
  type : deBlockType := .DE_BLOCK_STATEMENT
  idents : List Nat := []
  owningBlock : Option Nat := none
  filepath : Option Nat := none
  owningFunction : Nat := 0
  owningClass : Nat := 0
deriving DecidableEq, Repr

/-- A function record (`deFunction`): its name symbol (`deFunctionGetSym`),
declaration line (`deFunctionGetLine`), body block (`deFunctionGetSubBlock`)
and the identifiers registered on it (`deFunctionAppendIdent`). -/
structure deFunctionRec where
  sym : Nat := 0
  line : Nat := 0
  subBlock : Option Nat := none
  idents : List Nat := []
deriving DecidableEq, Repr

/-- A variable record (`deVariable`): declaration line (`deVariableGetLine`)
and the identifiers registered on it (`deVariableAppendIdent`). -/
structure deVariableRec where
  sym : Nat := 0
  line : Nat := 0
  idents : List Nat := []
deriving DecidableEq, Repr

/-- The whole database reached through `deTheRoot`: the record arenas, the
`deFilepathGetModuleBlock` map, the `deClassGetTclass` / `deTclassGetFunction`
maps used for class-body blocks, the mutable name field of
identifier-reference expressions (`deExpressionGetName` /
`deExpressionSetName`), and the global root block (`deRootGetBlock(deTheRoot)`). -/
structure deRoot where
  numIdents : Nat
  idents : Nat → deIdentRec
  blocks : Nat → deBlockRec
  functions : Nat → deFunctionRec
  vars : Nat → deVariableRec
  filepathModuleBlock : Nat → Nat
  classTclass : Nat → Nat
  tclassFunction : Nat → Nat
  exprName : Nat → Nat
  rootBlock : Nat

/-- A compiler-internal abort (`utExit` or a failed `utAssert`). -/
inductive utExitError where
  | called
deriving DecidableEq, Repr

/-- The reported compile error raised by `deError` in `deIdentCreate`:
"Tried to create an identifier '%s' that already exists on the block",
carrying the conflicting name and the line of the new declaration. -/
structure deDupIdentError where
  line : Nat
  name : Nat
deriving DecidableEq, Repr

/-- `deBlockFindIdent(block, name)`: hashed lookup of `name` in the block's
identifier table (first identifier in the table whose symbol is `name`). -/
def deBlockFindIdent (db : deRoot) (block : Nat) (name : Nat) : Option Nat :=
  (db.blocks block).idents.find? (fun h => (db.idents h).sym == name)

/-- `deBlockAppendIdent(block, ident)`: append `ident` to the block's table and
point the identifier's Block back-pointer at `block`. -/
def deBlockAppendIdent (db : deRoot) (block : Nat) (ident : Nat) : deRoot :=
  { db with
    blocks := Function.update db.blocks block
      { db.blocks block with idents := (db.blocks block).idents ++ [ident] },
    idents := Function.update db.idents ident
      { db.idents ident with block := some block } }

/-- `deBlockRemoveIdent(block, ident)`: remove `ident` from the block's table
and clear the identifier's Block back-pointer. -/
def deBlockRemoveIdent (db : deRoot) (block : Nat) (ident : Nat) : deRoot :=
  { db with
    blocks := Function.update db.blocks block
      { db.blocks block with idents := (db.blocks block).idents.erase ident },
    idents := Function.update db.idents ident
      { db.idents ident with block := none } }

/-- `deIdentSetSym(ident, name)`. -/
def deIdentSetSym (db : deRoot) (ident : Nat) (name : Nat) : deRoot :=
  { db with
    idents := Function.update db.idents ident
      { db.idents ident with sym := name } }

/-- `deIdentAlloc()` followed by `deIdentSetType` / `deIdentSetSym`: hand out
the next arena index, with all relationship fields null. -/
def deIdentAlloc (db : deRoot) (type : deIdentType) (name : Nat) : Nat × deRoot :=
  (db.numIdents,
   { db with
     numIdents := db.numIdents + 1,
     idents := Function.update db.idents db.numIdents { type := type, sym := name } })

/-- `deIdentCreate(block, type, name, line)` (ident.c:45-61).  If `block` is
not `deBlockNull`, a name already bound on the block is a reported
`deError` (the duplicate is not inserted); otherwise the fresh identifier is
appended to the block's table.  With a null block (operator identifiers) there
is no duplicate check and no insertion. -/
def deIdentCreate (db : deRoot) (block : Option Nat) (type : deIdentType)
    (name : Nat) (line : Nat) : Except deDupIdentError (Nat × deRoot) :=
  match block with
  | some b =>
    match deBlockFindIdent db b name with
    | some _ => .error ⟨line, name⟩
    | none =>
      let (ident, db1) := deIdentAlloc db type name
      .ok (ident, deBlockAppendIdent db1 b ident)
  | none =>
    let (ident, db1) := deIdentAlloc db type name
    .ok (ident, db1)

/-- `deFunctionAppendIdent(function, ident)`: register `ident` on the function
record and point the identifier's Function back-pointer at it. -/
def deFunctionAppendIdent (db : deRoot) (f : Nat) (ident : Nat) : deRoot :=
  { db with
    functions := Function.update db.functions f
      { db.functions f with idents := (db.functions f).idents ++ [ident] },
    idents := Function.update db.idents ident
      { db.idents ident with functionIdx := f } }

/-- `deVariableAppendIdent(variable, ident)`: register `ident` on the variable
record and point the identifier's Variable back-pointer at it. -/
def deVariableAppendIdent (db : deRoot) (v : Nat) (ident : Nat) : deRoot :=
  { db with
    vars := Function.update db.vars v
      { db.vars v with idents := (db.vars v).idents ++ [ident] },
    idents := Function.update db.idents ident
      { db.idents ident with variableIdx := v } }

/-- `deFunctionIdentCreate(block, function, name)` (ident.c:64-68). -/
def deFunctionIdentCreate (db : deRoot) (block : Option Nat) (f : Nat)
    (name : Nat) : Except deDupIdentError (Nat × deRoot) :=
  match deIdentCreate db block .DE_IDENT_FUNCTION name (db.functions f).line with
  | .error e => .error e
  | .ok (ident, db1) => .ok (ident, deFunctionAppendIdent db1 f ident)

/-- `deFindIdent(scopeBlock, name)` (ident.c:72-93): look in the scope block;
failing that, if the block has a filepath, in the filepath's module block;
failing that, in the global root block.  A block with no filepath (built-in
classes) returns `deIdentNull` straight after the first step. -/
def deFindIdent (db : deRoot) (scopeBlock : Nat) (name : Nat) : Option Nat :=
  match deBlockFindIdent db scopeBlock name with
  | some ident => some ident
  | none =>
    match (db.blocks scopeBlock).filepath with
    | none => none
    | some filepath =>
      match deBlockFindIdent db (db.filepathModuleBlock filepath) name with
      | some ident => some ident
      | none =>
        match deBlockFindIdent db db.rootBlock name with
        | some ident => some ident
        | none => none

/-- `deIdentGetSubBlock(ident)` (ident.c:127-135): a function identifier's
sub-block is its function's body block; a variable identifier has none. -/
def deIdentGetSubBlock (db : deRoot) (ident : Nat) : Option Nat :=
  match (db.idents ident).type with
  | .DE_IDENT_FUNCTION => (db.functions (db.idents ident).functionIdx).subBlock
  | .DE_IDENT_VARIABLE => none

/-- `deIdentGetLine(ident)` (ident.c:138-146). -/
def deIdentGetLine (db : deRoot) (ident : Nat) : Nat :=
  match (db.idents ident).type with
  | .DE_IDENT_FUNCTION => (db.functions (db.idents ident).functionIdx).line
  | .DE_IDENT_VARIABLE => (db.vars (db.idents ident).variableIdx).line

/-- Read-only tree view of a path expression.  `DE_EXPR_DOT` carries the
sub-path (first child) and the name of its second child, which the C code
asserts to be a `DE_EXPR_IDENT`; `DE_EXPR_AS` carries its first child. -/
inductive deExpression where
  | DE_EXPR_IDENT (name : Nat)
  | DE_EXPR_DOT (subPath : deExpression) (name : Nat)
  | DE_EXPR_AS (path : deExpression)
deriving DecidableEq, Repr

/-- `findIdentFromPath(scopeBlock, pathExpression)` (ident.c:149-169): unwrap
one `DE_EXPR_AS` level; a bare `DE_EXPR_IDENT` is a plain `deBlockFindIdent`
in the scope block; a `DE_EXPR_DOT` resolves its sub-path recursively in the
scope block and, on success, looks the trailing name up in the resolved
identifier's sub-block.  Anything else fails the `utAssert(... == DE_EXPR_DOT)`. -/
def findIdentFromPath (db : deRoot) : Nat → deExpression → Except utExitError (Option Nat)
  | scopeBlock, .DE_EXPR_IDENT name => .ok (deBlockFindIdent db scopeBlock name)
  | scopeBlock, .DE_EXPR_AS (.DE_EXPR_IDENT name) =>
    .ok (deBlockFindIdent db scopeBlock name)
  | scopeBlock, .DE_EXPR_DOT subPath name =>
    (match findIdentFromPath db scopeBlock subPath with
     | .error e => .error e
     | .ok none => .ok none
     | .ok (some ident) =>
       match deIdentGetSubBlock db ident with
       | none => .ok none
       | some subBlock => .ok (deBlockFindIdent db subBlock name))
  | scopeBlock, .DE_EXPR_AS (.DE_EXPR_DOT subPath name) =>
    (match findIdentFromPath db scopeBlock subPath with
     | .error e => .error e
     | .ok none => .ok none
     | .ok (some ident) =>
       match deIdentGetSubBlock db ident with
       | none => .ok none
       | some subBlock => .ok (deBlockFindIdent db subBlock name))
  | _, .DE_EXPR_AS (.DE_EXPR_AS _) => .error .called

/-- `deFindIdentFromPath(scopeBlock, pathExpression)` (ident.c:172-179): try
the scope block first; on a null result retry from the global root block. -/
def deFindIdentFromPath (db : deRoot) (scopeBlock : Nat) (path : deExpression) :
    Except utExitError (Option Nat) :=
  match findIdentFromPath db scopeBlock path with
  | .error e => .error e
  | .ok (some ident) => .ok (some ident)
  | .ok none => findIdentFromPath db db.rootBlock path

/-- The back-reference update loop of `deRenameIdent`: set the name of every
expression on the list. -/
def setExprNames (newName : Nat) (l : List Nat) (db : deRoot) : deRoot :=
  l.foldl (fun d e => { d with exprName := Function.update d.exprName e newName }) db

/-- `deRenameIdent(ident, newName)` (ident.c:182-192): remove the identifier
from its block's table, set its symbol, re-append it, then rewrite the name of
every identifier expression on its back-reference list.  The C code assumes
the identifier is on a block (operator identifiers are never renamed); a
block-less identifier is left unchanged here. -/
def deRenameIdent (db : deRoot) (ident : Nat) (newName : Nat) : deRoot :=
  match (db.idents ident).block with
  | none => db
  | some scopeBlock =>
    let db1 := deBlockRemoveIdent db scopeBlock ident
    let db2 := deIdentSetSym db1 ident newName
    let db3 := deBlockAppendIdent db2 scopeBlock ident
    setExprNames newName ((db3.idents ident).exprs) db3

/-- `deFindIdentOwningIdent(ident)` (ident.c:195-216): from the identifier's
block, take the owning block (none means top level); derive the owner's name
from the block type (owning function's symbol for a function block, the
tclass constructor function's symbol for a class block, `utExit` for a
statement block) and look it up in the owning block's table.  The C code
dereferences the identifier's block, so a block-less identifier aborts. -/
def deFindIdentOwningIdent (db : deRoot) (ident : Nat) : Except utExitError (Option Nat) :=
  match (db.idents ident).block with
  | none => .error .called
  | some block =>
    match (db.blocks block).owningBlock with
    | none => .ok none
    | some owningBlock =>
      match (db.blocks block).type with
      | .DE_BLOCK_FUNCTION =>
        .ok (deBlockFindIdent db owningBlock
          (db.functions (db.blocks block).owningFunction).sym)
      | .DE_BLOCK_STATEMENT => .error .called
      | .DE_BLOCK_CLASS =>
        .ok (deBlockFindIdent db owningBlock
          (db.functions (db.tclassFunction (db.classTclass
            (db.blocks block).owningClass))).sym)

/-- `deCreateIdentPathExpression(ident)` (ident.c:219-229): an identifier
expression of the identifier's own symbol, prefixed (through a `DE_EXPR_DOT`
node) by the recursively built path of the owning identifier when there is
one.  The C recursion is bounded by the scope-nesting depth; the embedding
makes that bound explicit with a fuel parameter (fuel exhaustion cannot happen
on a well-founded owning chain given enough fuel). -/
def deCreateIdentPathExpression (db : deRoot) : Nat → Nat → Except utExitError deExpression
  | 0, _ => .error .called
  | fuel + 1, ident =>
    match deFindIdentOwningIdent db ident with
    | .error e => .error e
    | .ok none => .ok (.DE_EXPR_IDENT (db.idents ident).sym)
    | .ok (some owningIdent) =>
      match deCreateIdentPathExpression db fuel owningIdent with
      | .error e => .error e
      | .ok prefixExpr => .ok (.DE_EXPR_DOT prefixExpr (db.idents ident).sym)

/-- `deCopyIdent(ident, destBlock)` (ident.c:233-245): create an identifier of
the same type and symbol on `destBlock` (at `deLineNull`), then register it on
the source identifier's Function or Variable payload.  The caller must ensure
the name is not already on `destBlock`; a violation is the `deError` of
`deIdentCreate`. -/
def deCopyIdent (db : deRoot) (ident : Nat) (destBlock : Nat) :
    Except deDupIdentError (Nat × deRoot) :=
  match deIdentCreate db (some destBlock) ((db.idents ident).type)
      ((db.idents ident).sym) 0 with
  | .error e => .error e
  | .ok (newIdent, db1) =>
    match (db.idents ident).type with
    | .DE_IDENT_FUNCTION =>
      .ok (newIdent, deFunctionAppendIdent db1 ((db.idents ident).functionIdx) newIdent)
    | .DE_IDENT_VARIABLE =>
      .ok (newIdent, deVariableAppendIdent db1 ((db.idents ident).variableIdx) newIdent)

/-!
Concrete databases used to exercise the operations.

`mkChainDB loc mod glob` is the three-level scenario of the spec: global root
block `0`, module block `1` (the module block of filepath `0`), and a local
block `2` inside the module (filepath `0`, owned by the root block).  One
symbol, `1`, is declared by function identifier `0` in the local block, `1` in
the module block and `2` in the root block; the three boolean parameters
choose which of the three declarations are present in the tables.  Block `3`
(and every higher block) is a built-in-style block: no filepath, empty table.
-/
def mkChainDB (loc mod glob : Bool) : deRoot where
  numIdents := 3
  idents := fun i =>
    match i with
    | 0 => { type := .DE_IDENT_FUNCTION, sym := 1, functionIdx := 0, block := some 2 }
    | 1 => { type := .DE_IDENT_FUNCTION, sym := 1, functionIdx := 1, block := some 1 }
    | 2 => { type := .DE_IDENT_FUNCTION, sym := 1, functionIdx := 2, block := some 0 }
    | _ => { type := .DE_IDENT_VARIABLE, sym := 0 }
  blocks := fun b =>
    match b with
    | 0 => { type := .DE_BLOCK_FUNCTION, idents := if glob then [2] else [] }
    | 1 => { type := .DE_BLOCK_FUNCTION, idents := if mod then [1] else [],
             filepath := some 0 }
    | 2 => { type := .DE_BLOCK_FUNCTION, idents := if loc then [0] else [],
             filepath := some 0, owningBlock := some 0 }
    | _ => { type := .DE_BLOCK_STATEMENT }
  functions := fun _ => {}
  vars := fun _ => {}
  filepathModuleBlock := fun _ => 1
  classTclass := fun _ => 0
  tclassFunction := fun _ => 0
  exprName := fun _ => 0
  rootBlock := 0

/-- A two-level database for qualified paths: function identifier `0` (symbol
`10`, function `0`) sits in the root block `0`; function `0`'s body is block
`1`, which holds variable identifier `1` (symbol `11`, variable `0`, with two
back-referencing identifier expressions `0` and `1`).  Identifiers `2` and up
are unallocated (`numIdents = 2`). -/
def pathDB : deRoot where
  numIdents := 2
  idents := fun i =>
    match i with
    | 0 => { type := .DE_IDENT_FUNCTION, sym := 10, functionIdx := 0, block := some 0 }
    | 1 => { type := .DE_IDENT_VARIABLE, sym := 11, variableIdx := 0, block := some 1,
             exprs := [0, 1] }
    | _ => { type := .DE_IDENT_VARIABLE, sym := 0 }
  blocks := fun b =>
    match b with
    | 0 => { type := .DE_BLOCK_FUNCTION, idents := [0] }
    | 1 => { type := .DE_BLOCK_FUNCTION, idents := [1], owningBlock := some 0,
             owningFunction := 0 }
    | _ => { type := .DE_BLOCK_STATEMENT }
  functions := fun f =>
    match f with
    | 0 => { sym := 10, subBlock := some 1 }
    | _ => {}
  vars := fun _ => { sym := 11 }
  filepathModuleBlock := fun _ => 0
  classTclass := fun _ => 0
  tclassFunction := fun _ => 0
  exprName := fun e => 11 - e
  rootBlock := 0

example : deFindIdent (mkChainDB true true true) 2 1 = some 0 := by decide
example : deFindIdent (mkChainDB false true true) 2 1 = some 1 := by decide
example : deFindIdent (mkChainDB false false true) 2 1 = some 2 := by decide
example : deFindIdent (mkChainDB false false false) 2 1 = none := by decide
example : deFindIdent (mkChainDB false false true) 3 1 = none := by decide
example : deBlockFindIdent (mkChainDB false false true) 0 1 = some 2 := by decide
example :
    deFindIdentFromPath pathDB 0 (.DE_EXPR_DOT (.DE_EXPR_IDENT 10) 11) = .ok (some 1) := rfl
example :
    deCreateIdentPathExpression pathDB 2 1 = .ok (.DE_EXPR_DOT (.DE_EXPR_IDENT 10) 11) := rfl
example : ((deRenameIdent pathDB 1 99).idents 1).sym = 99 := by decide
example : (deRenameIdent pathDB 1 99).exprName 0 = 99 := by decide
example : (deRenameIdent pathDB 1 99).exprName 5 = 6 := by decide
example : deBlockFindIdent (deRenameIdent pathDB 1 99) 1 11 = none := by decide
example : deBlockFindIdent (deRenameIdent pathDB 1 99) 1 99 = some 1 := by decide
example : (deCopyIdent pathDB 1 0).toOption.map (fun r => r.1) = some 2 := rfl
example :
    (deCopyIdent pathDB 1 0).toOption.map (fun r => (r.2.blocks 0).idents) = some [0, 2] := rfl
example :
    (deCopyIdent pathDB 1 0).toOption.map (fun r => (r.2.vars 0).idents) = some [2] := rfl

/-!
## Claim C1

The claim says a scope block with no filepath skips the module step but still
searches the global root.  The code (ident.c:78-81) returns `deIdentNull` as
soon as it sees the null filepath: the global root is never consulted.
-/

/-- Claim C1, counterexample: in `mkChainDB false false true`, block `3` has
no filepath and does not bind symbol `1`, the global root block binds it to
identifier `2`, yet `deFindIdent` returns "not found" — not the global
binding the claim promises. -/
theorem claim_C1_counterexample :
    ((mkChainDB false false true).blocks 3).filepath = none ∧
    deBlockFindIdent (mkChainDB false false true) 3 1 = none ∧
    deBlockFindIdent (mkChainDB false false true)
      ((mkChainDB false false true).rootBlock) 1 = some 2 ∧
    deFindIdent (mkChainDB false false true) 3 1 ≠ some 2 ∧
    deFindIdent (mkChainDB false false true) 3 1 = none := by
  decide

/-- Claim C1, amended: for every scope block with no associated filepath,
`deFindIdent` performs only the direct lookup in that block — both the module
step and the global-root step are skipped, so a name not bound directly in the
block resolves to "not found" even when the global root binds it. -/
theorem claim_C1 (db : deRoot) (b n : Nat) (h : (db.blocks b).filepath = none) :
    deFindIdent db b n = deBlockFindIdent db b n := by
  unfold deFindIdent
  cases hf : deBlockFindIdent db b n <;> simp [h, hf]

/-- Witness for the amended claim C1 at block `3` of `mkChainDB false false
true`. -/
theorem claim_C1_witness :
    ((mkChainDB false false true).blocks 3).filepath = none ∧
    deFindIdent (mkChainDB false false true) 3 1 =
      deBlockFindIdent (mkChainDB false false true) 3 1 :=
  ⟨by decide, claim_C1 (mkChainDB false false true) 3 1 (by decide)⟩

/-!
## Claim C2

With a filepath present, `deFindIdent` searches the scope block, then the
filepath's module block, then the global root, first match winning
(ident.c:72-93); the four `mkChainDB` variants walk the spec's
local / module / global shadowing ladder.
-/

/-- Claim C2: resolution with an associated filepath searches scope block,
module block, global root in that order, first match winning, and "not found"
only when all three miss; on the concrete local ⊂ module ⊂ global chain,
deleting the innermost binding in turn yields the local, module, then global
identifier, then "not found". -/
theorem claim_C2 :
    (∀ db : deRoot, ∀ b fp n i : Nat, (db.blocks b).filepath = some fp →
      (deBlockFindIdent db b n = some i → deFindIdent db b n = some i) ∧
      (deBlockFindIdent db b n = none →
        deBlockFindIdent db (db.filepathModuleBlock fp) n = some i →
        deFindIdent db b n = some i) ∧
      (deBlockFindIdent db b n = none →
        deBlockFindIdent db (db.filepathModuleBlock fp) n = none →
        deFindIdent db b n = deBlockFindIdent db db.rootBlock n)) ∧
    deFindIdent (mkChainDB true true true) 2 1 = some 0 ∧
    deFindIdent (mkChainDB false true true) 2 1 = some 1 ∧
    deFindIdent (mkChainDB false false true) 2 1 = some 2 ∧
    deFindIdent (mkChainDB false false false) 2 1 = none := by
  refine ⟨?_, by decide, by decide, by decide, by decide⟩
  intro db b fp n i hfp
  refine ⟨fun h1 => ?_, fun h1 h2 => ?_, fun h1 h2 => ?_⟩
  · simp [deFindIdent, h1]
  · simp [deFindIdent, h1, hfp, h2]
  · unfold deFindIdent
    cases hr : deBlockFindIdent db db.rootBlock n <;> simp [h1, hfp, h2, hr]

/-- Witness for claim C2: each of the three search steps is exercised on a
concrete chain database. -/
theorem claim_C2_witness :
    deFindIdent (mkChainDB true true false) 2 1 = some 0 ∧
    deFindIdent (mkChainDB false true false) 2 1 = some 1 ∧
    deFindIdent (mkChainDB false false true) 2 1 =
      deBlockFindIdent (mkChainDB false false true)
        ((mkChainDB false false true).rootBlock) 1 :=
  ⟨(claim_C2.1 (mkChainDB true true false) 2 0 1 0 (by decide)).1 (by decide),
   (claim_C2.1 (mkChainDB false true false) 2 0 1 1 (by decide)).2.1 (by decide) (by decide),
   (claim_C2.1 (mkChainDB false false true) 2 0 1 0 (by decide)).2.2 (by decide) (by decide)⟩

/-! ## Shared facts about the block-table lookup -/

theorem deBlockFindIdent_eq_none {db : deRoot} {b n : Nat} :
    deBlockFindIdent db b n = none ↔
      ∀ h ∈ (db.blocks b).idents, (db.idents h).sym ≠ n := by
  simp [deBlockFindIdent, List.find?_eq_none]

theorem deBlockFindIdent_mem {db : deRoot} {b n i : Nat}
    (h : deBlockFindIdent db b n = some i) : i ∈ (db.blocks b).idents :=
  List.mem_of_find?_eq_some h

theorem deBlockFindIdent_sym {db : deRoot} {b n i : Nat}
    (h : deBlockFindIdent db b n = some i) : (db.idents i).sym = n := by
  have := List.find?_some h
  simpa using this

theorem deBlockFindIdent_isSome {db : deRoot} {b n : Nat}
    (h : ∃ j ∈ (db.blocks b).idents, (db.idents j).sym = n) :
    ∃ k, deBlockFindIdent db b n = some k := by
  rw [← Option.isSome_iff_exists]
  simp only [deBlockFindIdent, List.find?_isSome]
  obtain ⟨j, hj, hsym⟩ := h
  exact ⟨j, hj, by simp [hsym]⟩

/-!
## Claim C3

Uniqueness of names on a block: the duplicate check of `deIdentCreate`
(ident.c:46-53) reports a `deError` carrying the conflicting name and the new
declaration's line, and any sequence of successful creations keeps every
block's name table duplicate-free.
-/

/-- Every handle on a block table has been allocated. -/
def ValidTables (db : deRoot) : Prop :=
  ∀ b : Nat, ∀ h ∈ (db.blocks b).idents, h < db.numIdents

/-- No two identifiers directly on the same block share a name. -/
def UniqueNames (db : deRoot) : Prop :=
  ∀ b : Nat, ((db.blocks b).idents.map (fun h => (db.idents h).sym)).Nodup

/-- One `deIdentCreate` call. -/
structure CreateReq where
  block : Option Nat
  type : deIdentType
  name : Nat
  line : Nat

/-- Run a sequence of `deIdentCreate` calls, `none` when one fails. -/
def runCreates (db : deRoot) : List CreateReq → Option deRoot
  | [] => some db
  | r :: rs =>
    match deIdentCreate db r.block r.type r.name r.line with
    | .error _ => none
    | .ok (_, db1) => runCreates db1 rs

/-! Field-level facts about the primitive state operations. -/

theorem appendIdent_numIdents (db : deRoot) (b i : Nat) :
    (deBlockAppendIdent db b i).numIdents = db.numIdents := rfl

theorem appendIdent_blocks_self (db : deRoot) (b i : Nat) :
    (deBlockAppendIdent db b i).blocks b =
      { db.blocks b with idents := (db.blocks b).idents ++ [i] } := by
  simp [deBlockAppendIdent]

theorem appendIdent_blocks_ne (db : deRoot) {b b' : Nat} (i : Nat) (h : b' ≠ b) :
    (deBlockAppendIdent db b i).blocks b' = db.blocks b' := by
  simp [deBlockAppendIdent, Function.update_noteq h]

theorem appendIdent_idents_self (db : deRoot) (b i : Nat) :
    (deBlockAppendIdent db b i).idents i = { db.idents i with block := some b } := by
  simp [deBlockAppendIdent]

theorem appendIdent_idents_ne (db : deRoot) (b : Nat) {i j : Nat} (h : j ≠ i) :
    (deBlockAppendIdent db b i).idents j = db.idents j := by
  simp [deBlockAppendIdent, Function.update_noteq h]

theorem removeIdent_blocks_self (db : deRoot) (b i : Nat) :
    (deBlockRemoveIdent db b i).blocks b =
      { db.blocks b with idents := (db.blocks b).idents.erase i } := by
  simp [deBlockRemoveIdent]

theorem removeIdent_blocks_ne (db : deRoot) {b b' : Nat} (i : Nat) (h : b' ≠ b) :
    (deBlockRemoveIdent db b i).blocks b' = db.blocks b' := by
  simp [deBlockRemoveIdent, Function.update_noteq h]

theorem removeIdent_idents_self (db : deRoot) (b i : Nat) :
    (deBlockRemoveIdent db b i).idents i = { db.idents i with block := none } := by
  simp [deBlockRemoveIdent]

theorem removeIdent_idents_ne (db : deRoot) (b : Nat) {i j : Nat} (h : j ≠ i) :
    (deBlockRemoveIdent db b i).idents j = db.idents j := by
  simp [deBlockRemoveIdent, Function.update_noteq h]

theorem setSym_idents_self (db : deRoot) (i n : Nat) :
    (deIdentSetSym db i n).idents i = { db.idents i with sym := n } := by
  simp [deIdentSetSym]

theorem setSym_idents_ne (db : deRoot) (n : Nat) {i j : Nat} (h : j ≠ i) :
    (deIdentSetSym db i n).idents j = db.idents j := by
  simp [deIdentSetSym, Function.update_noteq h]

theorem setSym_blocks (db : deRoot) (i n : Nat) :
    (deIdentSetSym db i n).blocks = db.blocks := rfl

theorem alloc_numIdents (db : deRoot) (t : deIdentType) (n : Nat) :
    (deIdentAlloc db t n).2.numIdents = db.numIdents + 1 := rfl

theorem alloc_blocks (db : deRoot) (t : deIdentType) (n : Nat) :
    (deIdentAlloc db t n).2.blocks = db.blocks := rfl

theorem alloc_idents_self (db : deRoot) (t : deIdentType) (n : Nat) :
    (deIdentAlloc db t n).2.idents db.numIdents = { type := t, sym := n } := by
  simp [deIdentAlloc]

theorem alloc_idents_ne (db : deRoot) (t : deIdentType) (n : Nat) {j : Nat}
    (h : j ≠ db.numIdents) : (deIdentAlloc db t n).2.idents j = db.idents j := by
  simp [deIdentAlloc, Function.update_noteq h]

/-- On a block with no duplicate, `deIdentCreate` allocates the next handle and
appends it. -/
theorem deIdentCreate_some_eq {db : deRoot} {b : Nat} (t : deIdentType) {n : Nat}
    (line : Nat) (hf : deBlockFindIdent db b n = none) :
    deIdentCreate db (some b) t n line =
      .ok (db.numIdents, deBlockAppendIdent (deIdentAlloc db t n).2 b db.numIdents) := by
  simp [deIdentCreate, hf, deIdentAlloc]

theorem deIdentCreate_none_eq (db : deRoot) (t : deIdentType) (n line : Nat) :
    deIdentCreate db none t n line = .ok (db.numIdents, (deIdentAlloc db t n).2) := by
  simp [deIdentCreate, deIdentAlloc]

theorem deIdentCreate_preserves {db : deRoot} {blk : Option Nat} {t : deIdentType}
    {n line j : Nat} {db1 : deRoot} (hv : ValidTables db) (hu : UniqueNames db)
    (hok : deIdentCreate db blk t n line = .ok (j, db1)) :
    ValidTables db1 ∧ UniqueNames db1 := by
  cases blk with
  | none =>
    rw [deIdentCreate_none_eq] at hok
    obtain ⟨rfl, rfl⟩ : j = db.numIdents ∧ db1 = (deIdentAlloc db t n).2 := by
      simpa [eq_comm] using hok
    constructor
    · intro b h hm
      rw [alloc_blocks] at hm
      exact Nat.lt_succ_of_lt (hv b h hm)
    · intro b
      rw [alloc_blocks]
      have hmap : (db.blocks b).idents.map (fun h => ((deIdentAlloc db t n).2.idents h).sym) =
          (db.blocks b).idents.map (fun h => (db.idents h).sym) := by
        refine List.map_congr_left (fun h hm => ?_)
        rw [alloc_idents_ne db t n (Nat.ne_of_lt (hv b h hm))]
      rw [hmap]
      exact hu b
  | some b =>
    cases hf : deBlockFindIdent db b n with
    | some k =>
      simp [deIdentCreate, hf] at hok
    | none =>
      rw [deIdentCreate_some_eq t line hf] at hok
      obtain ⟨rfl, rfl⟩ : j = db.numIdents ∧
          db1 = deBlockAppendIdent (deIdentAlloc db t n).2 b db.numIdents := by
        simpa [eq_comm] using hok
      have hA : ∀ h ∈ (db.blocks b).idents, h < db.numIdents := hv b
      constructor
      · intro b' h hm
        rw [appendIdent_numIdents, alloc_numIdents]
        by_cases hb : b' = b
        · subst hb
          rw [appendIdent_blocks_self, alloc_blocks] at hm
          simp only at hm
          rcases List.mem_append.1 hm with hm' | hm'
          · exact Nat.lt_succ_of_lt (hv b' h hm')
          · simp only [List.mem_singleton] at hm'
            omega
        · rw [appendIdent_blocks_ne _ _ hb, alloc_blocks] at hm
          exact Nat.lt_succ_of_lt (hv b' h hm)
      · intro b'
        by_cases hb : b' = b
        · subst hb
          rw [appendIdent_blocks_self, alloc_blocks]
          simp only [List.map_append]
          have hmap : (db.blocks b').idents.map
                (fun h => ((deBlockAppendIdent (deIdentAlloc db t n).2 b'
                  db.numIdents).idents h).sym) =
              (db.blocks b').idents.map (fun h => (db.idents h).sym) := by
            refine List.map_congr_left (fun h hm => ?_)
            have hne : h ≠ db.numIdents := Nat.ne_of_lt (hv b' h hm)
            rw [appendIdent_idents_ne _ _ hne, alloc_idents_ne db t n hne]
          rw [hmap]
          rw [List.nodup_append]
          refine ⟨hu b', by simp, ?_⟩
          intro x hx
          simp only [List.mem_map] at hx
          obtain ⟨h, hm, rfl⟩ := hx
          have hxn := deBlockFindIdent_eq_none.1 hf h hm
          simp only [List.map_cons, List.map_nil, List.mem_singleton]
          intro hcon
          apply hxn
          rw [hcon, appendIdent_idents_self, alloc_idents_self]
        · rw [appendIdent_blocks_ne _ _ hb, alloc_blocks]
          have hmap : (db.blocks b').idents.map
                (fun h => ((deBlockAppendIdent (deIdentAlloc db t n).2 b
                  db.numIdents).idents h).sym) =
              (db.blocks b').idents.map (fun h => (db.idents h).sym) := by
            refine List.map_congr_left (fun h hm => ?_)
            have hne : h ≠ db.numIdents := Nat.ne_of_lt (hv b' h hm)
            rw [appendIdent_idents_ne _ _ hne, alloc_idents_ne db t n hne]
          rw [hmap]
          exact hu b'

theorem runCreates_preserves {reqs : List CreateReq} :
    ∀ {db db1 : deRoot}, ValidTables db → UniqueNames db →
      runCreates db reqs = some db1 → ValidTables db1 ∧ UniqueNames db1 := by
  induction reqs with
  | nil =>
    intro db db1 hv hu h
    simp only [runCreates] at h
    obtain rfl := by simpa using h
    exact ⟨hv, hu⟩
  | cons r rs ih =>
    intro db db1 hv hu h
    unfold runCreates at h
    cases hc : deIdentCreate db r.block r.type r.name r.line with
    | error e => rw [hc] at h; simp at h
    | ok p =>
      obtain ⟨j2, db2⟩ := p
      rw [hc] at h
      obtain ⟨hv', hu'⟩ := deIdentCreate_preserves hv hu hc
      exact ih hv' hu' h

/-- Claim C3: on a real scope, `deIdentCreate` fails with the reported
duplicate error (carrying the conflicting name and the new declaration's line)
whenever the name is already bound there, and inserts nothing; otherwise it
allocates a fresh identifier of the given type and name, appends it to that
scope's table (touching no other scope), and returns it; consequently any
sequence of successful creations leaves every scope's table free of duplicate
names. -/
theorem claim_C3 :
    (∀ db : deRoot, ∀ b : Nat, ∀ t : deIdentType, ∀ n line j : Nat,
      deBlockFindIdent db b n = some j →
      deIdentCreate db (some b) t n line = .error ⟨line, n⟩) ∧
    (∀ db : deRoot, ∀ b : Nat, ∀ t : deIdentType, ∀ n line : Nat,
      (∃ j ∈ (db.blocks b).idents, (db.idents j).sym = n) →
      ∃ e : deDupIdentError, deIdentCreate db (some b) t n line = .error e ∧
        e.name = n ∧ e.line = line) ∧
    (∀ db : deRoot, ∀ b : Nat, ∀ t : deIdentType, ∀ n line : Nat,
      deBlockFindIdent db b n = none →
      ∃ db1, deIdentCreate db (some b) t n line = .ok (db.numIdents, db1) ∧
        (db1.idents db.numIdents).type = t ∧
        (db1.idents db.numIdents).sym = n ∧
        (db1.idents db.numIdents).block = some b ∧
        (db1.blocks b).idents = (db.blocks b).idents ++ [db.numIdents] ∧
        (∀ b', b' ≠ b → db1.blocks b' = db.blocks b')) ∧
    (∀ db db1 : deRoot, ∀ reqs : List CreateReq,
      ValidTables db → UniqueNames db →
      runCreates db reqs = some db1 → UniqueNames db1) := by
  refine ⟨?_, ?_, ?_, ?_⟩
  · intro db b t n line j hf
    simp [deIdentCreate, hf]
  · intro db b t n line hex
    obtain ⟨k, hk⟩ := deBlockFindIdent_isSome hex
    exact ⟨⟨line, n⟩, by simp [deIdentCreate, hk], rfl, rfl⟩
  · intro db b t n line hf
    refine ⟨deBlockAppendIdent (deIdentAlloc db t n).2 b db.numIdents,
      deIdentCreate_some_eq t line hf, ?_, ?_, ?_, ?_, ?_⟩
    · rw [appendIdent_idents_self, alloc_idents_self]
    · rw [appendIdent_idents_self, alloc_idents_self]
    · rw [appendIdent_idents_self]
    · rw [appendIdent_blocks_self, alloc_blocks]
    · intro b' hb
      rw [appendIdent_blocks_ne _ _ hb, alloc_blocks]
  · intro db db1 reqs hv hu h
    exact (runCreates_preserves hv hu h).2

theorem mkChainDB_validTables : ValidTables (mkChainDB true true true) := by
  intro b h hm
  match b with
  | 0 => simp [mkChainDB] at hm ⊢; omega
  | 1 => simp [mkChainDB] at hm ⊢; omega
  | 2 => simp [mkChainDB] at hm ⊢; omega
  | (x + 3) => simp [mkChainDB] at hm

theorem mkChainDB_uniqueNames : UniqueNames (mkChainDB true true true) := by
  intro b
  match b with
  | 0 => simp [mkChainDB]
  | 1 => simp [mkChainDB]
  | 2 => simp [mkChainDB]
  | (x + 3) => simp [mkChainDB]

/-- Witness for claim C3: a duplicate creation on the chain database fails
with the reported error, a fresh creation succeeds and appends, and a
successful creation sequence keeps names unique. -/
theorem claim_C3_witness :
    deIdentCreate (mkChainDB true true true) (some 2) .DE_IDENT_FUNCTION 1 7 =
      .error ⟨7, 1⟩ ∧
    (deIdentCreate (mkChainDB true true true) (some 3) .DE_IDENT_FUNCTION 5 9).toOption.map
      (fun r => (r.2.blocks 3).idents) = some [3] ∧
    UniqueNames ((runCreates (mkChainDB true true true)
      [⟨some 3, .DE_IDENT_FUNCTION, 5, 9⟩]).getD (mkChainDB true true true)) := by
  refine ⟨claim_C3.1 (mkChainDB true true true) 2 .DE_IDENT_FUNCTION 1 7 0 (by decide),
    ?_, ?_⟩
  · obtain ⟨db1, hok, -, -, -, htab, -⟩ :=
      claim_C3.2.2.1 (mkChainDB true true true) 3 .DE_IDENT_FUNCTION 5 9 (by decide)
    rw [hok]
    simp only [Except.toOption, Option.map]
    rw [htab]
    rfl
  · exact claim_C3.2.2.2 (mkChainDB true true true) _
      [⟨some 3, .DE_IDENT_FUNCTION, 5, 9⟩] mkChainDB_validTables mkChainDB_uniqueNames rfl

/-!
## Claim C4

Shape-by-shape behaviour of `findIdentFromPath` (ident.c:149-169): one
`DE_EXPR_AS` level is transparent, a bare name is a plain block lookup with no
fallback, and a dotted pair threads through the resolved sub-path identifier's
sub-block — failing when the sub-path fails or the identifier has no
sub-block (variables never have one).
-/

/-- Claim C4: path resolution unwraps one as-alias level, resolves a bare
name by plain lookup in the scope block only, and resolves a dotted pair by
recursively resolving the sub-path in the scope block — failing if that
fails, failing if the resolved identifier has no sub-block (every
Variable-variant identifier has none) — otherwise looking the trailing name
up in that sub-block only. -/
theorem claim_C4 :
    (∀ db : deRoot, ∀ b n : Nat,
      findIdentFromPath db b (.DE_EXPR_AS (.DE_EXPR_IDENT n)) =
        findIdentFromPath db b (.DE_EXPR_IDENT n)) ∧
    (∀ db : deRoot, ∀ b n : Nat, ∀ sub : deExpression,
      findIdentFromPath db b (.DE_EXPR_AS (.DE_EXPR_DOT sub n)) =
        findIdentFromPath db b (.DE_EXPR_DOT sub n)) ∧
    (∀ db : deRoot, ∀ b n : Nat,
      findIdentFromPath db b (.DE_EXPR_IDENT n) = .ok (deBlockFindIdent db b n)) ∧
    (∀ db : deRoot, ∀ b n : Nat, ∀ sub : deExpression,
      findIdentFromPath db b sub = .ok none →
      findIdentFromPath db b (.DE_EXPR_DOT sub n) = .ok none) ∧
    (∀ db : deRoot, ∀ b n i : Nat, ∀ sub : deExpression,
      findIdentFromPath db b sub = .ok (some i) →
      deIdentGetSubBlock db i = none →
      findIdentFromPath db b (.DE_EXPR_DOT sub n) = .ok none) ∧
    (∀ db : deRoot, ∀ b n i sb : Nat, ∀ sub : deExpression,
      findIdentFromPath db b sub = .ok (some i) →
      deIdentGetSubBlock db i = some sb →
      findIdentFromPath db b (.DE_EXPR_DOT sub n) = .ok (deBlockFindIdent db sb n)) ∧
    (∀ db : deRoot, ∀ i : Nat,
      (db.idents i).type = .DE_IDENT_VARIABLE → deIdentGetSubBlock db i = none) := by
  refine ⟨fun db b n => rfl, fun db b n sub => rfl, fun db b n => rfl, ?_, ?_, ?_, ?_⟩
  · intro db b n sub h
    simp [findIdentFromPath, h]
  · intro db b n i sub h hsb
    simp [findIdentFromPath, h, hsb]
  · intro db b n i sb sub h hsb
    simp [findIdentFromPath, h, hsb]
  · intro db i h
    simp [deIdentGetSubBlock, h]

/-- Witness for claim C4 on `pathDB`: a failed sub-path, a sub-path resolving
to a sub-block-less variable, and a successful composed resolution. -/
theorem claim_C4_witness :
    findIdentFromPath pathDB 0 (.DE_EXPR_DOT (.DE_EXPR_IDENT 99) 11) = .ok none ∧
    findIdentFromPath pathDB 1 (.DE_EXPR_DOT (.DE_EXPR_IDENT 11) 5) = .ok none ∧
    findIdentFromPath pathDB 0 (.DE_EXPR_DOT (.DE_EXPR_IDENT 10) 11) =
      .ok (deBlockFindIdent pathDB 1 11) ∧
    deIdentGetSubBlock pathDB 1 = none :=
  ⟨claim_C4.2.2.2.1 pathDB 0 11 (.DE_EXPR_IDENT 99) rfl,
   claim_C4.2.2.2.2.1 pathDB 1 5 1 (.DE_EXPR_IDENT 11) rfl rfl,
   claim_C4.2.2.2.2.2.1 pathDB 0 11 0 1 (.DE_EXPR_IDENT 10) rfl rfl,
   claim_C4.2.2.2.2.2.2 pathDB 1 rfl⟩

/-!
## Claim C5

`deFindIdentFromPath` (ident.c:172-179) retries a failed plain resolution from
the global root block only — the enclosing module block is never consulted, so
a module-level declaration is invisible to path fallback from the root.
-/

/-- Claim C5: the fallback entry point returns the plain resolution from the
scope block when that succeeds and otherwise the plain resolution from the
global root; concretely, with symbol `1` declared only in the module block,
the bare path `1` resolved with fallback from the global root is "not found". -/
theorem claim_C5 :
    (∀ db : deRoot, ∀ b i : Nat, ∀ p : deExpression,
      findIdentFromPath db b p = .ok (some i) →
      deFindIdentFromPath db b p = .ok (some i)) ∧
    (∀ db : deRoot, ∀ b : Nat, ∀ p : deExpression,
      findIdentFromPath db b p = .ok none →
      deFindIdentFromPath db b p = findIdentFromPath db db.rootBlock p) ∧
    deBlockFindIdent (mkChainDB false true false) 1 1 = some 1 ∧
    deFindIdentFromPath (mkChainDB false true false) 0 (.DE_EXPR_IDENT 1) = .ok none := by
  refine ⟨?_, ?_, by decide, rfl⟩
  · intro db b i p h
    simp [deFindIdentFromPath, h]
  · intro db b p h
    simp [deFindIdentFromPath, h]

/-- Witness for claim C5: a direct hit is returned unchanged, and a miss
falls back to the root block (never the module block). -/
theorem claim_C5_witness :
    deFindIdentFromPath (mkChainDB true true true) 2 (.DE_EXPR_IDENT 1) = .ok (some 0) ∧
    deFindIdentFromPath (mkChainDB false true true) 2 (.DE_EXPR_IDENT 1) =
      findIdentFromPath (mkChainDB false true true)
        ((mkChainDB false true true).rootBlock) (.DE_EXPR_IDENT 1) :=
  ⟨claim_C5.1 (mkChainDB true true true) 2 0 (.DE_EXPR_IDENT 1) rfl,
   claim_C5.2.1 (mkChainDB false true true) 2 (.DE_EXPR_IDENT 1) rfl⟩

/-! ## Facts about `setExprNames` and `deRenameIdent` -/

theorem setExprNames_blocks (nn : Nat) (l : List Nat) :
    ∀ db : deRoot, (setExprNames nn l db).blocks = db.blocks := by
  induction l with
  | nil => intro db; rfl
  | cons a l ih => intro db; exact (ih _).trans rfl

theorem setExprNames_idents (nn : Nat) (l : List Nat) :
    ∀ db : deRoot, (setExprNames nn l db).idents = db.idents := by
  induction l with
  | nil => intro db; rfl
  | cons a l ih => intro db; exact (ih _).trans rfl

theorem setExprNames_functions (nn : Nat) (l : List Nat) :
    ∀ db : deRoot, (setExprNames nn l db).functions = db.functions := by
  induction l with
  | nil => intro db; rfl
  | cons a l ih => intro db; exact (ih _).trans rfl

theorem setExprNames_vars (nn : Nat) (l : List Nat) :
    ∀ db : deRoot, (setExprNames nn l db).vars = db.vars := by
  induction l with
  | nil => intro db; rfl
  | cons a l ih => intro db; exact (ih _).trans rfl

theorem setExprNames_not_mem (nn : Nat) (l : List Nat) :
    ∀ db : deRoot, ∀ e, e ∉ l → (setExprNames nn l db).exprName e = db.exprName e := by
  induction l with
  | nil => intro db e _; rfl
  | cons a l ih =>
    intro db e he
    have h1 : e ∉ l := fun h => he (List.mem_cons_of_mem a h)
    have h2 : e ≠ a := fun h => he (h ▸ List.mem_cons_self a l)
    have : (setExprNames nn (a :: l) db) =
        setExprNames nn l { db with exprName := Function.update db.exprName a nn } := rfl
    rw [this, ih _ e h1]
    simp [Function.update_noteq h2]

theorem setExprNames_mem (nn : Nat) (l : List Nat) :
    ∀ db : deRoot, ∀ e ∈ l, (setExprNames nn l db).exprName e = nn := by
  induction l with
  | nil => intro db e he; simp at he
  | cons a l ih =>
    intro db e he
    have hstep : (setExprNames nn (a :: l) db) =
        setExprNames nn l { db with exprName := Function.update db.exprName a nn } := rfl
    by_cases hel : e ∈ l
    · rw [hstep]
      exact ih _ e hel
    · have : e = a := by
        rcases List.mem_cons.1 he with h | h
        · exact h
        · exact absurd h hel
      subst this
      rw [hstep, setExprNames_not_mem nn l _ e hel]
      simp

/-- Unfolding of `deRenameIdent` for an identifier on a block. -/
theorem deRenameIdent_eq {db : deRoot} {i S : Nat} (nn : Nat)
    (hblk : (db.idents i).block = some S) :
    deRenameIdent db i nn =
      setExprNames nn ((db.idents i).exprs)
        (deBlockAppendIdent (deIdentSetSym (deBlockRemoveIdent db S i) i nn) S i) := by
  simp only [deRenameIdent, hblk]
  congr 1
  rw [appendIdent_idents_self, setSym_idents_self, removeIdent_idents_self]

theorem rename_idents_self {db : deRoot} {i S : Nat} (nn : Nat)
    (hblk : (db.idents i).block = some S) :
    (deRenameIdent db i nn).idents i =
      { db.idents i with sym := nn, block := some S } := by
  rw [deRenameIdent_eq nn hblk, setExprNames_idents, appendIdent_idents_self,
    setSym_idents_self, removeIdent_idents_self]

theorem rename_idents_ne (db : deRoot) (nn : Nat) {i j : Nat} (h : j ≠ i) :
    (deRenameIdent db i nn).idents j = db.idents j := by
  cases hb : (db.idents i).block with
  | none => simp only [deRenameIdent, hb]
  | some S =>
    rw [deRenameIdent_eq nn hb, setExprNames_idents, appendIdent_idents_ne _ _ h,
      setSym_idents_ne _ _ h, removeIdent_idents_ne _ _ h]

theorem rename_blocks_self {db : deRoot} {i S : Nat} (nn : Nat)
    (hblk : (db.idents i).block = some S) :
    (deRenameIdent db i nn).blocks S =
      { db.blocks S with idents := (db.blocks S).idents.erase i ++ [i] } := by
  rw [deRenameIdent_eq nn hblk, setExprNames_blocks, appendIdent_blocks_self]
  rw [show (deIdentSetSym (deBlockRemoveIdent db S i) i nn).blocks =
    (deBlockRemoveIdent db S i).blocks from rfl]
  rw [removeIdent_blocks_self]

theorem rename_blocks_ne {db : deRoot} {i S : Nat} (nn : Nat)
    (hblk : (db.idents i).block = some S) {b : Nat} (h : b ≠ S) :
    (deRenameIdent db i nn).blocks b = db.blocks b := by
  rw [deRenameIdent_eq nn hblk, setExprNames_blocks, appendIdent_blocks_ne _ _ h]
  rw [show (deIdentSetSym (deBlockRemoveIdent db S i) i nn).blocks =
    (deBlockRemoveIdent db S i).blocks from rfl]
  rw [removeIdent_blocks_ne _ _ h]

theorem rename_functions (db : deRoot) (i nn : Nat) :
    (deRenameIdent db i nn).functions = db.functions := by
  cases hb : (db.idents i).block with
  | none => simp only [deRenameIdent, hb]
  | some S => rw [deRenameIdent_eq nn hb, setExprNames_functions]; rfl

theorem rename_vars (db : deRoot) (i nn : Nat) :
    (deRenameIdent db i nn).vars = db.vars := by
  cases hb : (db.idents i).block with
  | none => simp only [deRenameIdent, hb]
  | some S => rw [deRenameIdent_eq nn hb, setExprNames_vars]; rfl

theorem rename_exprName_mem {db : deRoot} {i S : Nat} (nn : Nat)
    (hblk : (db.idents i).block = some S) :
    ∀ e ∈ (db.idents i).exprs, (deRenameIdent db i nn).exprName e = nn := by
  intro e he
  rw [deRenameIdent_eq nn hblk]
  exact setExprNames_mem nn _ _ e he

theorem rename_exprName_not_mem {db : deRoot} {i S : Nat} (nn : Nat)
    (hblk : (db.idents i).block = some S) :
    ∀ e, e ∉ (db.idents i).exprs → (deRenameIdent db i nn).exprName e = db.exprName e := by
  intro e he
  rw [deRenameIdent_eq nn hblk, setExprNames_not_mem nn _ _ e he]
  rfl

/-- `find?` over a table that ends in `i` when `i` is the only entry that can
match. -/
theorem find?_append_singleton {p : Nat → Bool} {l : List Nat} {i : Nat}
    (h : ∀ j ∈ l, p j = true → j = i) (hi : p i = true) :
    (l ++ [i]).find? p = some i := by
  induction l with
  | nil => simp [List.find?_cons_of_pos, hi]
  | cons a l ih =>
    by_cases hp : p a = true
    · have := h a (List.mem_cons_self a l) hp
      subst this
      simp [List.find?_cons_of_pos, hp]
    · rw [List.cons_append, List.find?_cons_of_neg _ (by simpa using hp)]
      exact ih (fun j hj hpj => h j (List.mem_cons_of_mem a hj) hpj)

/-!
## Claim C6

`deRenameIdent` (ident.c:182-192) moves the identifier to the new name in its
own scope's table and rewrites its back-referencing expressions.
-/

/-- Claim C6: renaming an identifier on scope `S` to a name free in `S` (and
different from its old name, with no other identifier in `S` sharing the old
name) leaves the identifier bound in `S` under the new name — so `deFindIdent`
from `S` returns it — removes the old-name binding from `S`'s table, and
stamps the new name on every back-referencing identifier expression. -/
theorem claim_C6 (db : deRoot) (i S nn : Nat)
    (hblk : (db.idents i).block = some S)
    (hfree : deBlockFindIdent db S nn = none)
    (hne : nn ≠ (db.idents i).sym)
    (huniq : ∀ j ∈ (db.blocks S).idents, j ≠ i → (db.idents j).sym ≠ (db.idents i).sym) :
    deBlockFindIdent (deRenameIdent db i nn) S nn = some i ∧
    deFindIdent (deRenameIdent db i nn) S nn = some i ∧
    deBlockFindIdent (deRenameIdent db i nn) S ((db.idents i).sym) = none ∧
    ∀ e ∈ (db.idents i).exprs, (deRenameIdent db i nn).exprName e = nn := by
  have hfind : deBlockFindIdent (deRenameIdent db i nn) S nn = some i := by
    rw [deBlockFindIdent, rename_blocks_self nn hblk]
    refine find?_append_singleton (fun j hj hpj => ?_) ?_
    · by_contra hji
      rw [rename_idents_ne db nn hji] at hpj
      have hmem : j ∈ (db.blocks S).idents := List.mem_of_mem_erase hj
      have := deBlockFindIdent_eq_none.1 hfree j hmem
      simp at hpj
      exact this hpj
    · rw [rename_idents_self nn hblk]
      simp
  refine ⟨hfind, by simp [deFindIdent, hfind], ?_, rename_exprName_mem nn hblk⟩
  rw [deBlockFindIdent, rename_blocks_self nn hblk]
  refine List.find?_eq_none.2 (fun j hj => ?_)
  rcases List.mem_append.1 hj with hj' | hj'
  · by_cases hji : j = i
    · subst hji
      rw [rename_idents_self nn hblk]
      simpa using hne
    · rw [rename_idents_ne db nn hji]
      have hmem : j ∈ (db.blocks S).idents := List.mem_of_mem_erase hj'
      simpa using huniq j hmem hji
  · simp only [List.mem_singleton] at hj'
    subst hj'
    rw [rename_idents_self nn hblk]
    simpa using hne

/-- Witness for claim C6: renaming variable identifier `1` of `pathDB` from
symbol `11` to `99`. -/
theorem claim_C6_witness :
    deBlockFindIdent (deRenameIdent pathDB 1 99) 1 99 = some 1 ∧
    deFindIdent (deRenameIdent pathDB 1 99) 1 99 = some 1 ∧
    deBlockFindIdent (deRenameIdent pathDB 1 99) 1 ((pathDB.idents 1).sym) = none ∧
    (deRenameIdent pathDB 1 99).exprName 0 = 99 := by
  obtain ⟨h1, h2, h3, h4⟩ := claim_C6 pathDB 1 1 99 (by decide) (by decide)
    (by decide) (by decide)
  exact ⟨h1, h2, h3, h4 0 (by decide)⟩

/-!
## Claim C10

Frame of `deRenameIdent`: only the renamed identifier's symbol and the name
fields of its back-referencing expressions change.
-/

/-- Claim C10: renaming changes only the identifier's own symbol and the names
of the expressions on its back-reference list; its variant tag, payload links,
back-reference list and scope are untouched, every other identifier record and
every other block are untouched, membership of `S`'s table is preserved, and
the function/variable arenas are untouched. -/
theorem claim_C10 (db : deRoot) (i S nn : Nat)
    (hblk : (db.idents i).block = some S) :
    ((deRenameIdent db i nn).idents i).sym = nn ∧
    ((deRenameIdent db i nn).idents i).type = (db.idents i).type ∧
    ((deRenameIdent db i nn).idents i).functionIdx = (db.idents i).functionIdx ∧
    ((deRenameIdent db i nn).idents i).variableIdx = (db.idents i).variableIdx ∧
    ((deRenameIdent db i nn).idents i).exprs = (db.idents i).exprs ∧
    ((deRenameIdent db i nn).idents i).block = some S ∧
    (∀ j, j ≠ i → (deRenameIdent db i nn).idents j = db.idents j) ∧
    (∀ b, b ≠ S → (deRenameIdent db i nn).blocks b = db.blocks b) ∧
    (∀ j, j ≠ i →
      (j ∈ ((deRenameIdent db i nn).blocks S).idents ↔ j ∈ (db.blocks S).idents)) ∧
    i ∈ ((deRenameIdent db i nn).blocks S).idents ∧
    (deRenameIdent db i nn).functions = db.functions ∧
    (deRenameIdent db i nn).vars = db.vars ∧
    (∀ e, e ∉ (db.idents i).exprs → (deRenameIdent db i nn).exprName e = db.exprName e) ∧
    (∀ e ∈ (db.idents i).exprs, (deRenameIdent db i nn).exprName e = nn) := by
  refine ⟨?_, ?_, ?_, ?_, ?_, ?_, fun j hj => rename_idents_ne db nn hj,
    fun b hb => rename_blocks_ne nn hblk hb, ?_, ?_,
    rename_functions db i nn, rename_vars db i nn,
    rename_exprName_not_mem nn hblk, rename_exprName_mem nn hblk⟩
  · rw [rename_idents_self nn hblk]
  · rw [rename_idents_self nn hblk]
  · rw [rename_idents_self nn hblk]
  · rw [rename_idents_self nn hblk]
  · rw [rename_idents_self nn hblk]
  · rw [rename_idents_self nn hblk]
  · intro j hj
    rw [rename_blocks_self nn hblk]
    simp [List.mem_append, List.mem_erase_of_ne hj, hj]
  · rw [rename_blocks_self nn hblk]
    simp

/-- Witness for claim C10 on `pathDB`: renaming identifier `1` leaves
identifier `0`, block `0` and unrelated expression names untouched. -/
theorem claim_C10_witness :
    ((deRenameIdent pathDB 1 99).idents 1).sym = 99 ∧
    ((deRenameIdent pathDB 1 99).idents 1).exprs = (pathDB.idents 1).exprs ∧
    (deRenameIdent pathDB 1 99).idents 0 = pathDB.idents 0 ∧
    (deRenameIdent pathDB 1 99).blocks 0 = pathDB.blocks 0 ∧
    (deRenameIdent pathDB 1 99).exprName 5 = pathDB.exprName 5 := by
  obtain ⟨h1, h2, h3, h4, h5, h6, h7, h8, h9, h10, h11, h12, h13, h14⟩ :=
    claim_C10 pathDB 1 1 99 (by decide)
  exact ⟨h1, h5, h7 0 (by decide), h8 0 (by decide), h13 5 (by decide)⟩

/-! ## Facts about payload registration and `deCopyIdent` -/

theorem funcAppend_idents_self (db : deRoot) (f j : Nat) :
    (deFunctionAppendIdent db f j).idents j = { db.idents j with functionIdx := f } := by
  simp [deFunctionAppendIdent]

theorem funcAppend_idents_ne (db : deRoot) (f : Nat) {j k : Nat} (h : k ≠ j) :
    (deFunctionAppendIdent db f j).idents k = db.idents k := by
  simp [deFunctionAppendIdent, Function.update_noteq h]

theorem funcAppend_blocks (db : deRoot) (f j : Nat) :
    (deFunctionAppendIdent db f j).blocks = db.blocks := rfl

theorem funcAppend_functions_self (db : deRoot) (f j : Nat) :
    (deFunctionAppendIdent db f j).functions f =
      { db.functions f with idents := (db.functions f).idents ++ [j] } := by
  simp [deFunctionAppendIdent]

theorem varAppend_idents_self (db : deRoot) (v j : Nat) :
    (deVariableAppendIdent db v j).idents j = { db.idents j with variableIdx := v } := by
  simp [deVariableAppendIdent]

theorem varAppend_idents_ne (db : deRoot) (v : Nat) {j k : Nat} (h : k ≠ j) :
    (deVariableAppendIdent db v j).idents k = db.idents k := by
  simp [deVariableAppendIdent, Function.update_noteq h]

theorem varAppend_blocks (db : deRoot) (v j : Nat) :
    (deVariableAppendIdent db v j).blocks = db.blocks := rfl

theorem varAppend_vars_self (db : deRoot) (v j : Nat) :
    (deVariableAppendIdent db v j).vars v =
      { db.vars v with idents := (db.vars v).idents ++ [j] } := by
  simp [deVariableAppendIdent]

theorem deCopyIdent_eq_fn {db : deRoot} {i dest : Nat}
    (ht : (db.idents i).type = .DE_IDENT_FUNCTION)
    (hfree : deBlockFindIdent db dest ((db.idents i).sym) = none) :
    deCopyIdent db i dest = .ok (db.numIdents,
      deFunctionAppendIdent (deBlockAppendIdent
        (deIdentAlloc db .DE_IDENT_FUNCTION ((db.idents i).sym)).2 dest db.numIdents)
        ((db.idents i).functionIdx) db.numIdents) := by
  unfold deCopyIdent
  rw [ht, deIdentCreate_some_eq _ 0 hfree]

theorem deCopyIdent_eq_var {db : deRoot} {i dest : Nat}
    (ht : (db.idents i).type = .DE_IDENT_VARIABLE)
    (hfree : deBlockFindIdent db dest ((db.idents i).sym) = none) :
    deCopyIdent db i dest = .ok (db.numIdents,
      deVariableAppendIdent (deBlockAppendIdent
        (deIdentAlloc db .DE_IDENT_VARIABLE ((db.idents i).sym)).2 dest db.numIdents)
        ((db.idents i).variableIdx) db.numIdents) := by
  unfold deCopyIdent
  rw [ht, deIdentCreate_some_eq _ 0 hfree]

/-!
## Claim C7

`deCopyIdent` (ident.c:233-245) clones an identifier into a destination block,
sharing the Function/Variable payload and registering the clone on it; the
clone is independent of later renames of the source.
-/

/-- Claim C7: copying an allocated identifier into a scope where its name is
free yields a fresh identifier, distinct from the source, with the same
variant tag and symbol, appended to the destination table, sharing the
source's Function or Variable payload and registered on it (for variables as
well as functions), while the source record is untouched; renaming the source
afterwards does not change the copy's name. -/
theorem claim_C7 (db : deRoot) (i dest : Nat)
    (hvalid : i < db.numIdents)
    (hfree : deBlockFindIdent db dest ((db.idents i).sym) = none) :
    ∃ db1, deCopyIdent db i dest = .ok (db.numIdents, db1) ∧
      db.numIdents ≠ i ∧
      db1.idents i = db.idents i ∧
      (db1.idents db.numIdents).type = (db.idents i).type ∧
      (db1.idents db.numIdents).sym = (db.idents i).sym ∧
      (db1.blocks dest).idents = (db.blocks dest).idents ++ [db.numIdents] ∧
      ((db.idents i).type = .DE_IDENT_FUNCTION →
        (db1.idents db.numIdents).functionIdx = (db.idents i).functionIdx ∧
        db.numIdents ∈ (db1.functions ((db.idents i).functionIdx)).idents) ∧
      ((db.idents i).type = .DE_IDENT_VARIABLE →
        (db1.idents db.numIdents).variableIdx = (db.idents i).variableIdx ∧
        db.numIdents ∈ (db1.vars ((db.idents i).variableIdx)).idents) ∧
      ∀ nn, ((deRenameIdent db1 i nn).idents db.numIdents).sym = (db.idents i).sym := by
  have hne : db.numIdents ≠ i := fun h => by omega
  cases ht : (db.idents i).type with
  | DE_IDENT_FUNCTION =>
    refine ⟨_, deCopyIdent_eq_fn ht hfree, hne, ?_, ?_, ?_, ?_, ?_, ?_, ?_⟩
    · rw [funcAppend_idents_ne _ _ (Ne.symm hne), appendIdent_idents_ne _ _ (Ne.symm hne),
        alloc_idents_ne db _ _ (Ne.symm hne)]
    · rw [funcAppend_idents_self, appendIdent_idents_self, alloc_idents_self]
    · rw [funcAppend_idents_self, appendIdent_idents_self, alloc_idents_self]
    · rw [funcAppend_blocks, appendIdent_blocks_self, alloc_blocks]
    · intro _
      refine ⟨?_, ?_⟩
      · rw [funcAppend_idents_self]
      · rw [funcAppend_functions_self]
        simp
    · intro hcon
      cases hcon
    · intro nn
      rw [rename_idents_ne _ nn hne, funcAppend_idents_self, appendIdent_idents_self,
        alloc_idents_self]
  | DE_IDENT_VARIABLE =>
    refine ⟨_, deCopyIdent_eq_var ht hfree, hne, ?_, ?_, ?_, ?_, ?_, ?_, ?_⟩
    · rw [varAppend_idents_ne _ _ (Ne.symm hne), appendIdent_idents_ne _ _ (Ne.symm hne),
        alloc_idents_ne db _ _ (Ne.symm hne)]
    · rw [varAppend_idents_self, appendIdent_idents_self, alloc_idents_self]
    · rw [varAppend_idents_self, appendIdent_idents_self, alloc_idents_self]
    · rw [varAppend_blocks, appendIdent_blocks_self, alloc_blocks]
    · intro hcon
      cases hcon
    · intro _
      refine ⟨?_, ?_⟩
      · rw [varAppend_idents_self]
      · rw [varAppend_vars_self]
        simp
    · intro nn
      rw [rename_idents_ne _ nn hne, varAppend_idents_self, appendIdent_idents_self,
        alloc_idents_self]

/-- Witness for claim C7: copying variable identifier `1` of `pathDB` into the
root block. -/
theorem claim_C7_witness :
    (deCopyIdent pathDB 1 0).toOption.map (fun r => r.1) = some pathDB.numIdents ∧
    (deCopyIdent pathDB 1 0).toOption.map (fun r => (r.2.idents pathDB.numIdents).sym) =
      some ((pathDB.idents 1).sym) ∧
    (deCopyIdent pathDB 1 0).toOption.map (fun r => (r.2.blocks 0).idents) =
      some ((pathDB.blocks 0).idents ++ [pathDB.numIdents]) ∧
    (deCopyIdent pathDB 1 0).toOption.map
      (fun r => ((deRenameIdent r.2 1 77).idents pathDB.numIdents).sym) =
      some ((pathDB.idents 1).sym) := by
  obtain ⟨db1, hok, hne, hkeep, hty, hsym, htab, hfn, hvr, hren⟩ :=
    claim_C7 pathDB 1 0 (by decide) (by decide)
  refine ⟨?_, ?_, ?_, ?_⟩
  · rw [hok]
    rfl
  · rw [hok]
    show some ((db1.idents pathDB.numIdents).sym) = some ((pathDB.idents 1).sym)
    rw [hsym]
  · rw [hok]
    show some ((db1.blocks 0).idents) = some ((pathDB.blocks 0).idents ++ [pathDB.numIdents])
    rw [htab]
  · rw [hok]
    show some (((deRenameIdent db1 1 77).idents pathDB.numIdents).sym) =
      some ((pathDB.idents 1).sym)
    rw [hren 77]

/-!
## Claim C9

Operator identifiers: `deIdentCreate` with `deBlockNull` performs no duplicate
check and no insertion (ident.c:46, 57-59), so such an identifier is on no
block and in no table, and no lookup ever returns it; the mutating operations
never insert it later.
-/

/-- An operator identifier's situation: on no block and in no scope table. -/
def NeverInScope (db : deRoot) (i : Nat) : Prop :=
  (db.idents i).block = none ∧ ∀ b : Nat, i ∉ (db.blocks b).idents

/-- Anything `deFindIdent` returns is on some block's table. -/
theorem deFindIdent_mem {db : deRoot} {b n i : Nat} (h : deFindIdent db b n = some i) :
    ∃ b', i ∈ (db.blocks b').idents := by
  unfold deFindIdent at h
  split at h
  next j hj =>
    cases h
    exact ⟨b, deBlockFindIdent_mem hj⟩
  next hj =>
    split at h
    next => cases h
    next fp hfp =>
      split at h
      next j hj2 =>
        cases h
        exact ⟨db.filepathModuleBlock fp, deBlockFindIdent_mem hj2⟩
      next hj2 =>
        split at h
        next j hj3 =>
          cases h
          exact ⟨db.rootBlock, deBlockFindIdent_mem hj3⟩
        next => cases h

/-- Anything `findIdentFromPath` returns is on some block's table. -/
theorem findIdentFromPath_mem {db : deRoot} :
    ∀ {b : Nat} {p : deExpression} {i : Nat},
      findIdentFromPath db b p = .ok (some i) → ∃ b', i ∈ (db.blocks b').idents := by
  have hdot : ∀ (b : Nat) (sub : deExpression) (n i : Nat),
      (match findIdentFromPath db b sub with
       | .error e => .error e
       | .ok none => .ok none
       | .ok (some ident) =>
         match deIdentGetSubBlock db ident with
         | none => .ok none
         | some subBlock => .ok (deBlockFindIdent db subBlock n)) =
        (.ok (some i) : Except utExitError (Option Nat)) →
      ∃ b', i ∈ (db.blocks b').idents := by
    intro b sub n i h
    split at h
    next => cases h
    next => cases h
    next j hj =>
      split at h
      next => cases h
      next sb hsb =>
        have h3 : deBlockFindIdent db sb n = some i := by simpa using h
        exact ⟨sb, deBlockFindIdent_mem h3⟩
  intro b p i
  match p with
  | .DE_EXPR_IDENT n =>
    intro h
    have h1 : deBlockFindIdent db b n = some i := by
      simpa [findIdentFromPath] using h
    exact ⟨b, deBlockFindIdent_mem h1⟩
  | .DE_EXPR_DOT sub n =>
    intro h
    exact hdot b sub n i (by simpa [findIdentFromPath] using h)
  | .DE_EXPR_AS (.DE_EXPR_IDENT n) =>
    intro h
    have h1 : deBlockFindIdent db b n = some i := by
      simpa [findIdentFromPath] using h
    exact ⟨b, deBlockFindIdent_mem h1⟩
  | .DE_EXPR_AS (.DE_EXPR_DOT sub n) =>
    intro h
    exact hdot b sub n i (by simpa [findIdentFromPath] using h)
  | .DE_EXPR_AS (.DE_EXPR_AS q) =>
    intro h
    simp [findIdentFromPath] at h

/-- `deIdentCreate` never puts an already-allocated scope-less identifier on a
table, nor touches its record. -/
theorem create_NeverInScope {db : deRoot} {blk : Option Nat} {t : deIdentType}
    {n line j i : Nat} {db1 : deRoot} (hi : i < db.numIdents)
    (hns : NeverInScope db i)
    (h : deIdentCreate db blk t n line = .ok (j, db1)) : NeverInScope db1 i := by
  have hne : i ≠ db.numIdents := Nat.ne_of_lt hi
  cases blk with
  | none =>
    rw [deIdentCreate_none_eq] at h
    obtain ⟨-, rfl⟩ : j = db.numIdents ∧ db1 = (deIdentAlloc db t n).2 := by
      simpa [eq_comm] using h
    refine ⟨?_, ?_⟩
    · rw [alloc_idents_ne db t n hne]
      exact hns.1
    · intro b
      rw [alloc_blocks]
      exact hns.2 b
  | some bb =>
    cases hf : deBlockFindIdent db bb n with
    | some k => simp [deIdentCreate, hf] at h
    | none =>
      rw [deIdentCreate_some_eq t line hf] at h
      obtain ⟨-, rfl⟩ : j = db.numIdents ∧
          db1 = deBlockAppendIdent (deIdentAlloc db t n).2 bb db.numIdents := by
        simpa [eq_comm] using h
      refine ⟨?_, ?_⟩
      · rw [appendIdent_idents_ne _ _ hne, alloc_idents_ne db t n hne]
        exact hns.1
      · intro b
        by_cases hb : b = bb
        · subst hb
          rw [appendIdent_blocks_self, alloc_blocks]
          intro hmem
          have hm' : i ∈ (db.blocks b).idents ∨ i = db.numIdents := by
            simpa using hmem
          rcases hm' with hm | hm
          · exact hns.2 b hm
          · exact hne hm
        · rw [appendIdent_blocks_ne _ _ hb, alloc_blocks]
          exact hns.2 b

/-- `deRenameIdent` never puts a scope-less identifier on a table. -/
theorem rename_NeverInScope {db : deRoot} {i : Nat} (j nn : Nat)
    (hns : NeverInScope db i) : NeverInScope (deRenameIdent db j nn) i := by
  cases hb : (db.idents j).block with
  | none =>
    simp only [deRenameIdent, hb]
    exact hns
  | some S =>
    have hji : j ≠ i := by
      intro h
      rw [h, hns.1] at hb
      cases hb
    refine ⟨?_, ?_⟩
    · rw [rename_idents_ne db nn (Ne.symm hji)]
      exact hns.1
    · intro b
      by_cases hbS : b = S
      · subst hbS
        rw [rename_blocks_self nn hb]
        intro hmem
        have hm' : i ∈ (db.blocks b).idents.erase j ∨ i = j := by
          simpa using hmem
        rcases hm' with hm | hm
        · exact hns.2 b (List.mem_of_mem_erase hm)
        · exact hji hm.symm
      · rw [rename_blocks_ne nn hb hbS]
        exact hns.2 b

/-- `deCopyIdent` never puts an already-allocated scope-less identifier on a
table. -/
theorem copy_NeverInScope {db : deRoot} {i j dest k : Nat} {db1 : deRoot}
    (hi : i < db.numIdents) (hns : NeverInScope db i)
    (h : deCopyIdent db j dest = .ok (k, db1)) : NeverInScope db1 i := by
  unfold deCopyIdent at h
  cases hc : deIdentCreate db (some dest) ((db.idents j).type) ((db.idents j).sym) 0 with
  | error e =>
    rw [hc] at h
    simp at h
  | ok r =>
    obtain ⟨k2, dbc⟩ := r
    rw [hc] at h
    have hk2 : k2 = db.numIdents := by
      cases hf : deBlockFindIdent db dest ((db.idents j).sym) with
      | some m => rw [deIdentCreate, hf] at hc; simp at hc
      | none =>
        rw [deIdentCreate_some_eq _ 0 hf] at hc
        have hc' : db.numIdents = k2 ∧
            dbc = deBlockAppendIdent
              (deIdentAlloc db ((db.idents j).type) ((db.idents j).sym)).2 dest
              db.numIdents := by
          simpa [eq_comm] using hc
        exact hc'.1.symm
    have hnsc : NeverInScope dbc i := create_NeverInScope hi hns hc
    have hnei : i ≠ k2 := by
      rw [hk2]
      exact Nat.ne_of_lt hi
    cases ht : (db.idents j).type with
    | DE_IDENT_FUNCTION =>
      rw [ht] at h
      obtain ⟨hk, hdb⟩ : k2 = k ∧
          deFunctionAppendIdent dbc ((db.idents j).functionIdx) k2 = db1 := by
        simpa using h
      subst hdb
      refine ⟨?_, ?_⟩
      · rw [funcAppend_idents_ne _ _ hnei]
        exact hnsc.1
      · intro b
        rw [funcAppend_blocks]
        exact hnsc.2 b
    | DE_IDENT_VARIABLE =>
      rw [ht] at h
      obtain ⟨hk, hdb⟩ : k2 = k ∧
          deVariableAppendIdent dbc ((db.idents j).variableIdx) k2 = db1 := by
        simpa using h
      subst hdb
      refine ⟨?_, ?_⟩
      · rw [varAppend_idents_ne _ _ hnei]
        exact hnsc.1
      · intro b
        rw [varAppend_blocks]
        exact hnsc.2 b

/-- Claim C9: an identifier created with the null-block sentinel is created
with no duplicate check (creation always succeeds) and is on no block and on
no table; an identifier in that situation is never returned by `deFindIdent`
or by path resolution from any scope, and creation, renaming and copying
never put it on a table. -/
theorem claim_C9 :
    (∀ db : deRoot, ∀ t : deIdentType, ∀ n line : Nat, ValidTables db →
      ∃ db1, deIdentCreate db none t n line = .ok (db.numIdents, db1) ∧
        db1.blocks = db.blocks ∧ NeverInScope db1 db.numIdents) ∧
    (∀ db : deRoot, ∀ i b n : Nat, NeverInScope db i →
      deFindIdent db b n ≠ some i) ∧
    (∀ db : deRoot, ∀ i b : Nat, ∀ p : deExpression, NeverInScope db i →
      findIdentFromPath db b p ≠ .ok (some i)) ∧
    (∀ db : deRoot, ∀ i b : Nat, ∀ p : deExpression, NeverInScope db i →
      deFindIdentFromPath db b p ≠ .ok (some i)) ∧
    (∀ db : deRoot, ∀ blk : Option Nat, ∀ t : deIdentType, ∀ n line i j : Nat,
      ∀ db1 : deRoot, i < db.numIdents → NeverInScope db i →
      deIdentCreate db blk t n line = .ok (j, db1) → NeverInScope db1 i) ∧
    (∀ db : deRoot, ∀ i j nn : Nat, NeverInScope db i →
      NeverInScope (deRenameIdent db j nn) i) ∧
    (∀ db : deRoot, ∀ i j dest k : Nat, ∀ db1 : deRoot,
      i < db.numIdents → NeverInScope db i →
      deCopyIdent db j dest = .ok (k, db1) → NeverInScope db1 i) := by
  refine ⟨?_, ?_, ?_, ?_, ?_, ?_, ?_⟩
  · intro db t n line hv
    refine ⟨(deIdentAlloc db t n).2, deIdentCreate_none_eq db t n line, alloc_blocks db t n,
      ?_, ?_⟩
    · rw [alloc_idents_self]
    · intro b
      rw [alloc_blocks]
      intro hmem
      exact absurd (hv b db.numIdents hmem) (by omega)
  · intro db i b n hns h
    obtain ⟨b', hb'⟩ := deFindIdent_mem h
    exact hns.2 b' hb'
  · intro db i b p hns h
    obtain ⟨b', hb'⟩ := findIdentFromPath_mem h
    exact hns.2 b' hb'
  · intro db i b p hns h
    unfold deFindIdentFromPath at h
    cases h1 : findIdentFromPath db b p with
    | error e => rw [h1] at h; simp at h
    | ok r =>
      rw [h1] at h
      cases r with
      | none =>
        obtain ⟨b', hb'⟩ := findIdentFromPath_mem h
        exact hns.2 b' hb'
      | some j =>
        obtain rfl : j = i := by simpa using h
        obtain ⟨b', hb'⟩ := findIdentFromPath_mem h1
        exact hns.2 b' hb'
  · intro db blk t n line i j db1 hi hns h
    exact create_NeverInScope hi hns h
  · intro db i j nn hns
    exact rename_NeverInScope j nn hns
  · intro db i j dest k db1 hi hns h
    exact copy_NeverInScope hi hns h

theorem pathDB_validTables : ValidTables pathDB := by
  intro b h hm
  match b with
  | 0 => simp [pathDB] at hm ⊢; omega
  | 1 => simp [pathDB] at hm ⊢; omega
  | (x + 2) => simp [pathDB] at hm

theorem pathDB_NeverInScope5 : NeverInScope pathDB 5 := by
  refine ⟨rfl, ?_⟩
  intro b
  match b with
  | 0 => simp [pathDB]
  | 1 => simp [pathDB]
  | (x + 2) => simp [pathDB]

/-- Witness for claim C9: creating an operator identifier on `pathDB` leaves
it block-less, and the scope-less identifier `5` is invisible to both lookup
paths and survives a rename untouched. -/
theorem claim_C9_witness :
    (deIdentCreate pathDB none .DE_IDENT_FUNCTION 42 0).toOption.map
      (fun r => (r.2.idents r.1).block) = some none ∧
    deFindIdent pathDB 0 11 ≠ some 5 ∧
    findIdentFromPath pathDB 0 (.DE_EXPR_DOT (.DE_EXPR_IDENT 10) 11) ≠ .ok (some 5) ∧
    deFindIdentFromPath pathDB 0 (.DE_EXPR_IDENT 11) ≠ .ok (some 5) ∧
    NeverInScope (deRenameIdent pathDB 1 99) 5 := by
  obtain ⟨db1, hok, hblocks, hns⟩ :=
    claim_C9.1 pathDB .DE_IDENT_FUNCTION 42 0 pathDB_validTables
  refine ⟨?_,
    claim_C9.2.1 pathDB 5 0 11 pathDB_NeverInScope5,
    claim_C9.2.2.1 pathDB 5 0 (.DE_EXPR_DOT (.DE_EXPR_IDENT 10) 11) pathDB_NeverInScope5,
    claim_C9.2.2.2.1 pathDB 5 0 (.DE_EXPR_IDENT 11) pathDB_NeverInScope5,
    claim_C9.2.2.2.2.2.1 pathDB 5 1 99 pathDB_NeverInScope5⟩
  rw [hok]
  show some ((db1.idents pathDB.numIdents).block) = some none
  rw [hns.1]

/-!
## Claim C8

Round trip: `deCreateIdentPathExpression` (ident.c:219-229) walks the owning
chain built by `deFindIdentOwningIdent` (ident.c:195-216); resolving the
resulting dotted path from the global root with `deFindIdentFromPath` lands
back on the identifier.
-/

/-- An identifier reachable from the global root by its fully-qualified name:
either it sits in the root block, which owns no further block, and its name
finds it there; or its owning identifier (per `deFindIdentOwningIdent`, so
each enclosing scope is a function-body or class-body block whose owner is
findable in the owning block's table) is itself reachable, that owning
identifier's sub-block is the identifier's own block, and its name finds it
there. -/
inductive RootReachable (db : deRoot) : Nat → Prop where
  | base (i : Nat) :
      (db.idents i).block = some db.rootBlock →
      (db.blocks db.rootBlock).owningBlock = none →
      deBlockFindIdent db db.rootBlock ((db.idents i).sym) = some i →
      RootReachable db i
  | step (i o b : Nat) :
      RootReachable db o →
      deFindIdentOwningIdent db i = .ok (some o) →
      (db.idents i).block = some b →
      deIdentGetSubBlock db o = some b →
      deBlockFindIdent db b ((db.idents i).sym) = some i →
      RootReachable db i

/-- Claim C8: for an identifier reachable only through its qualified name from
the global root, building its owning path and resolving that path from the
global root — plain or with global fallback — returns the same identifier. -/
theorem claim_C8 (db : deRoot) (i : Nat) (h : RootReachable db i) :
    ∀ fuel : Nat, ∀ p : deExpression,
      deCreateIdentPathExpression db fuel i = .ok p →
      findIdentFromPath db db.rootBlock p = .ok (some i) ∧
      deFindIdentFromPath db db.rootBlock p = .ok (some i) := by
  induction h with
  | base i hblk hroot hfind =>
    intro fuel p hp
    cases fuel with
    | zero => cases hp
    | succ f =>
      have howning : deFindIdentOwningIdent db i = .ok none := by
        simp only [deFindIdentOwningIdent, hblk, hroot]
      simp only [deCreateIdentPathExpression, howning] at hp
      obtain rfl : p = .DE_EXPR_IDENT ((db.idents i).sym) := by
        simpa [eq_comm] using hp
      have hplain : findIdentFromPath db db.rootBlock
          (.DE_EXPR_IDENT ((db.idents i).sym)) = .ok (some i) := by
        rw [findIdentFromPath, hfind]
      exact ⟨hplain, by rw [deFindIdentFromPath, hplain]⟩
  | step i o b hro hown hblk hsub hfind ih =>
    intro fuel p hp
    cases fuel with
    | zero => cases hp
    | succ f =>
      simp only [deCreateIdentPathExpression, hown] at hp
      cases hpre : deCreateIdentPathExpression db f o with
      | error e =>
        simp only [hpre] at hp
        cases hp
      | ok pre =>
        simp only [hpre] at hp
        obtain rfl : p = .DE_EXPR_DOT pre ((db.idents i).sym) := by
          simpa [eq_comm] using hp
        obtain ⟨hfp, -⟩ := ih f pre hpre
        have hplain : findIdentFromPath db db.rootBlock
            (.DE_EXPR_DOT pre ((db.idents i).sym)) = .ok (some i) := by
          simp only [findIdentFromPath, hfp, hsub, hfind]
        exact ⟨hplain, by rw [deFindIdentFromPath, hplain]⟩

/-- Witness for claim C8: variable identifier `1` of `pathDB`, nested in the
body of function `10` at the root, round-trips through the path
`10.11`. -/
theorem claim_C8_witness :
    findIdentFromPath pathDB pathDB.rootBlock
      (.DE_EXPR_DOT (.DE_EXPR_IDENT 10) 11) = .ok (some 1) ∧
    deFindIdentFromPath pathDB pathDB.rootBlock
      (.DE_EXPR_DOT (.DE_EXPR_IDENT 10) 11) = .ok (some 1) :=
  claim_C8 pathDB 1
    (.step 1 0 1 (.base 0 rfl rfl (by decide)) rfl rfl rfl (by decide))
    2 (.DE_EXPR_DOT (.DE_EXPR_IDENT 10) 11) rfl

end Rune
